import Mathlib

/-!
Verification of the image fitting and tiling scripts of this repository
(tile_to_A4_2x2.py, 2x2.py, 2x1.py).

The embedding models a raster image as its pixel dimensions together with
a total pixel lookup function, the Pillow operations the scripts call
(Image.resize, Image.crop, Image.paste, Image.new), the fitter
resize_to_poster, the A4 pixel computation a4_pixels, and the 2x2 tile
slicing loop of main.  Arithmetic that Python performs on floats is
modelled exactly over the rationals, with Python round rendered as round
half to even.
-/

/-- A pixel: an RGB triple. -/
abbrev Pixel : Type := ℕ × ℕ × ℕ

/-- A raster image: pixel dimensions plus a total pixel lookup function.
Lookups outside the rectangle return whatever the function says; the
operations below never expose them. -/
structure Img where
  width : ℕ
  height : ℕ
  pix : ℤ → ℤ → Pixel

def whitePixel : Pixel := (255, 255, 255)

def blackPixel : Pixel := (0, 0, 0)

/-- A constant test image of the given size. -/
def mkImg (w h : ℕ) : Img := ⟨w, h, fun _ _ => blackPixel⟩

/-- Python round on an exact rational value: round half to even, as the
builtin round behaves. -/
def pyRound (q : ℚ) : ℤ :=
  if q - ⌊q⌋ < 1/2 then ⌊q⌋
  else if 1/2 < q - ⌊q⌋ then ⌊q⌋ + 1
  else if 2 ∣ ⌊q⌋ then ⌊q⌋ else ⌊q⌋ + 1

/-- Errors raised by the fitter: the explicit ValueError of
resize_to_poster for a bad mode string, and the ValueError that Pillow
Image.resize raises when asked for a width or height below 1. -/
inductive FitError where
  | invalidPolicy : FitError
  | resizeError : FitError
deriving DecidableEq

/-- Model of Pillow Image.resize pixel content.  The scripts use the
LANCZOS filter; no claim under verification depends on interpolated
pixel values, only on the dimensions of the result, so the resampling
kernel is abstracted by coordinate scaling. -/
def resizeImg (img : Img) (nw nh : ℤ) : Img :=
  { width := nw.toNat
    height := nh.toNat
    pix := fun x y => img.pix (x * img.width / nw) (y * img.height / nh) }

/-- Model of Pillow Image.resize including its size validation: resizing
to a width or height below 1 raises ValueError (height and width must
be greater than 0). -/
def resizeE (img : Img) (nw nh : ℤ) : Except FitError Img :=
  if 1 ≤ nw ∧ 1 ≤ nh then .ok (resizeImg img nw nh) else .error .resizeError

/-- Model of Pillow Image.crop with box (l, t, r, b): the result has
size (r - l, b - t); pixel (x, y) is source pixel (l + x, t + y), and
areas outside the source are filled with zeros. -/
def crop (img : Img) (l t r b : ℤ) : Img :=
  { width := (r - l).toNat
    height := (b - t).toNat
    pix := fun x y =>
      if 0 ≤ l + x ∧ l + x < img.width ∧ 0 ≤ t + y ∧ t + y < img.height
      then img.pix (l + x) (t + y)
      else blackPixel }

/-- Model of Pillow Image.new for mode RGB: a solid canvas. -/
def newRGB (w h : ℤ) (c : Pixel) : Img :=
  { width := w.toNat, height := h.toNat, pix := fun _ _ => c }

/-- Model of Pillow Image.paste of img onto bg at offset (l, t): inside
the pasted rectangle the pixel comes from img, elsewhere from bg. -/
def paste (bg img : Img) (l t : ℤ) : Img :=
  { width := bg.width
    height := bg.height
    pix := fun x y =>
      if l ≤ x ∧ x < l + img.width ∧ t ≤ y ∧ y < t + img.height
      then img.pix (x - l) (y - t)
      else bg.pix x y }

/-- A4_MM of tile_to_A4_2x2.py: page width and height in millimeters. -/
def A4_MM : ℚ × ℚ := (210, 297)

/-- mm_to_inches of tile_to_A4_2x2.py. -/
def mm_to_inches (mm_value : ℚ) : ℚ := mm_value / 25.4

/-- a4_pixels of tile_to_A4_2x2.py: (width_px, height_px) for A4 at the
given dpi. -/
def a4_pixels (dpi : ℤ) : ℤ × ℤ :=
  (pyRound (mm_to_inches A4_MM.1 * dpi), pyRound (mm_to_inches A4_MM.2 * dpi))

/-- The local scale of the cover branch of resize_to_poster:
max(tw / img.width, th / img.height). -/
def coverScale (img : Img) (tw th : ℤ) : ℚ :=
  max ((tw : ℚ) / img.width) ((th : ℚ) / img.height)

/-- The local new_w of the cover branch: int(round(img.width * scale)). -/
def coverNewW (img : Img) (tw th : ℤ) : ℤ :=
  pyRound (img.width * coverScale img tw th)

/-- The local new_h of the cover branch: int(round(img.height * scale)). -/
def coverNewH (img : Img) (tw th : ℤ) : ℤ :=
  pyRound (img.height * coverScale img tw th)

/-- The local left of the cover branch: (new_w - tw) // 2. -/
def coverLeft (img : Img) (tw th : ℤ) : ℤ :=
  Int.fdiv (coverNewW img tw th - tw) 2

/-- The local top of the cover branch: (new_h - th) // 2. -/
def coverTop (img : Img) (tw th : ℤ) : ℤ :=
  Int.fdiv (coverNewH img tw th - th) 2

/-- The local scale of the contain branch of resize_to_poster:
min(tw / img.width, th / img.height). -/
def containScale (img : Img) (tw th : ℤ) : ℚ :=
  min ((tw : ℚ) / img.width) ((th : ℚ) / img.height)

/-- The local new_w of the contain branch. -/
def containNewW (img : Img) (tw th : ℤ) : ℤ :=
  pyRound (img.width * containScale img tw th)

/-- The local new_h of the contain branch. -/
def containNewH (img : Img) (tw th : ℤ) : ℤ :=
  pyRound (img.height * containScale img tw th)

/-- The local left of the contain branch: (tw - new_w) // 2. -/
def containLeft (img : Img) (tw th : ℤ) : ℤ :=
  Int.fdiv (tw - containNewW img tw th) 2

/-- The local top of the contain branch: (th - new_h) // 2. -/
def containTop (img : Img) (tw th : ℤ) : ℤ :=
  Int.fdiv (th - containNewH img tw th) 2

/-- resize_to_poster of tile_to_A4_2x2.py lines 39-67: resize or crop or
letterbox the source img to exactly target_size. -/
def resize_to_poster (img : Img) (target_size : ℤ × ℤ) (mode : String) :
    Except FitError Img :=
  let tw := target_size.1
  let th := target_size.2
  if mode = "cover" then
    match resizeE img (coverNewW img tw th) (coverNewH img tw th) with
    | .error e => .error e
    | .ok img_resized =>
      .ok (crop img_resized (coverLeft img tw th) (coverTop img tw th)
        (coverLeft img tw th + tw) (coverTop img tw th + th))
  else if mode = "contain" then
    match resizeE img (containNewW img tw th) (containNewH img tw th) with
    | .error e => .error e
    | .ok img_resized =>
      let bg := newRGB tw th whitePixel
      .ok (paste bg img_resized (containLeft img tw th) (containTop img tw th))
  else
    .error .invalidPolicy

/-- The 2x2 slicing loop of main in tile_to_A4_2x2.py lines 140-148,
with the per cell A4 pixel size as parameters: for each row and col the
tile is the crop of the poster at box
(col * aw, row * ah, col * aw + aw, row * ah + ah). -/
def tiles2x2 (poster : Img) (aw ah : ℤ) : List ((ℕ × ℕ) × Img) :=
  (List.range 2).flatMap (fun row =>
    (List.range 2).map (fun col =>
      ((row, col),
        crop poster (col * aw) (row * ah) (col * aw + aw) (row * ah + ah))))

/-- The pipeline of main in tile_to_A4_2x2.py: A4 cell size from dpi,
poster size twice the cell on each axis, fit with resize_to_poster,
slice into 2x2 tiles. -/
def mainTiles (img : Img) (dpi : ℤ) (mode : String) :
    Except FitError (List ((ℕ × ℕ) × Img)) :=
  let aw := (a4_pixels dpi).1
  let ah := (a4_pixels dpi).2
  match resize_to_poster img (aw * 2, ah * 2) mode with
  | .error e => .error e
  | .ok poster => .ok (tiles2x2 poster aw ah)

/-- The hardcoded A4 pixel size (at 300 dpi) shared by 2x2.py and
2x1.py: (3508, 2480) when landscape else (2480, 3508). -/
def a4_size (landscape : Bool) : ℕ × ℕ :=
  if landscape then (3508, 2480) else (2480, 3508)

/-- The resize step of split_image_to_a4 in 2x2.py lines 10-13: direct
resize of the source to exactly two by two A4 pages. -/
def split2x2_resize (img : Img) (landscape : Bool) : Except FitError Img :=
  resizeE img ((a4_size landscape).1 * 2 : ℕ) ((a4_size landscape).2 * 2 : ℕ)

/-- The row extent of stacked tile i in split_image_to_a4 of 2x1.py
lines 18-20 (upper = i * a4_height, lower = upper + a4_height), with
the hardcoded a4_height generalized to a parameter. -/
def stackedTileRows (a4_height : ℤ) (i : ℕ) : ℤ × ℤ :=
  (i * a4_height, i * a4_height + a4_height)

/-- The size of a fit result, when it is not an error. -/
def okSize : Except FitError Img → Option (ℕ × ℕ)
  | .ok r => some (r.width, r.height)
  | .error _ => none

/-- The error of a fit result, when there is one. -/
def errOf : Except FitError Img → Option FitError
  | .ok _ => none
  | .error e => some e

/-- Reassembly, stated from the partition round trip property of the
spec: paste every tile back at offset (col * aw, row * ah) onto a blank
poster sized canvas. -/
def reassemble (aw ah : ℤ) (ts : List ((ℕ × ℕ) × Img)) : Img :=
  ts.foldl (fun acc t => paste acc t.2 (t.1.2 * aw) (t.1.1 * ah))
    (newRGB (aw * 2) (ah * 2) whitePixel)

/-- The pixel rectangle of tile (row, col) in an aw by ah cell grid. -/
def tileRect (aw ah : ℤ) (rc : ℕ × ℕ) (p : ℤ × ℤ) : Prop :=
  rc.2 * aw ≤ p.1 ∧ p.1 < rc.2 * aw + aw ∧
  rc.1 * ah ≤ p.2 ∧ p.2 < rc.1 * ah + ah

/-! ## Arithmetic lemmas about pyRound and floor division -/

theorem fdiv_two_eq (a : ℤ) : Int.fdiv a 2 = a / 2 := by
  rw [Int.fdiv_eq_ediv] ; norm_num

theorem pyRound_ge_floor (q : ℚ) : ⌊q⌋ ≤ pyRound q := by
  unfold pyRound ; split_ifs <;> omega

theorem le_pyRound {n : ℤ} {q : ℚ} (h : (n : ℚ) ≤ q) : n ≤ pyRound q :=
  le_trans (Int.le_floor.mpr h) (pyRound_ge_floor q)

theorem pyRound_le {n : ℤ} {q : ℚ} (h : q ≤ (n : ℚ)) : pyRound q ≤ n := by
  have hfl : ⌊q⌋ ≤ n := by
    have h1 := Int.floor_mono h
    rwa [Int.floor_intCast] at h1
  have hq : (⌊q⌋ : ℚ) ≤ q := Int.floor_le q
  unfold pyRound
  split_ifs with h1 h2 h3
  · exact hfl
  · have hx : (⌊q⌋ : ℚ) + 1/2 < q := by linarith
    have hlt : (⌊q⌋ : ℚ) < (n : ℚ) := by linarith
    have : ⌊q⌋ < n := by exact_mod_cast hlt
    omega
  · exact hfl
  · have hx : (⌊q⌋ : ℚ) + 1/2 ≤ q := by linarith
    have hlt : (⌊q⌋ : ℚ) < (n : ℚ) := by linarith
    have : ⌊q⌋ < n := by exact_mod_cast hlt
    omega

theorem pyRound_eq_low {q : ℚ} {n : ℤ} (h1 : (n : ℚ) ≤ q) (h2 : q < n + 1/2) :
    pyRound q = n := by
  have hf : ⌊q⌋ = n := Int.floor_eq_iff.mpr ⟨h1, by linarith⟩
  unfold pyRound
  rw [hf, if_pos (by linarith)]

theorem pyRound_eq_high {q : ℚ} {n : ℤ} (h1 : (n : ℚ) + 1/2 < q) (h2 : q < n + 1) :
    pyRound q = n + 1 := by
  have hf : ⌊q⌋ = n := Int.floor_eq_iff.mpr ⟨by linarith, h2⟩
  unfold pyRound
  rw [hf, if_neg (by linarith), if_pos (by linarith)]

theorem pyRound_intCast (n : ℤ) : pyRound (n : ℚ) = n :=
  pyRound_eq_low (le_refl _) (by norm_num)

theorem pyRound_abs_le (q : ℚ) : |(pyRound q : ℚ) - q| ≤ 1/2 := by
  have h0 : (⌊q⌋ : ℚ) ≤ q := Int.floor_le q
  have h1 : q < ⌊q⌋ + 1 := Int.lt_floor_add_one q
  unfold pyRound
  split_ifs with ha hb hc <;> rw [abs_le] <;> constructor <;> push_cast <;> linarith

/-! ## Geometry of the cover and contain branches -/

theorem cover_new_ge (img : Img) (tw th : ℤ)
    (hw : 0 < img.width) (hh : 0 < img.height) :
    tw ≤ coverNewW img tw th ∧ th ≤ coverNewH img tw th := by
  have hw' : (0 : ℚ) < (img.width : ℚ) := by exact_mod_cast hw
  have hh' : (0 : ℚ) < (img.height : ℚ) := by exact_mod_cast hh
  constructor
  · apply le_pyRound
    calc (tw : ℚ) = img.width * ((tw : ℚ) / img.width) := by field_simp
    _ ≤ img.width * coverScale img tw th :=
        mul_le_mul_of_nonneg_left (le_max_left _ _) hw'.le
  · apply le_pyRound
    calc (th : ℚ) = img.height * ((th : ℚ) / img.height) := by field_simp
    _ ≤ img.height * coverScale img tw th :=
        mul_le_mul_of_nonneg_left (le_max_right _ _) hh'.le

theorem contain_new_le (img : Img) (tw th : ℤ)
    (hw : 0 < img.width) (hh : 0 < img.height) :
    containNewW img tw th ≤ tw ∧ containNewH img tw th ≤ th := by
  have hw' : (0 : ℚ) < (img.width : ℚ) := by exact_mod_cast hw
  have hh' : (0 : ℚ) < (img.height : ℚ) := by exact_mod_cast hh
  constructor
  · apply pyRound_le
    calc (img.width : ℚ) * containScale img tw th
        ≤ img.width * ((tw : ℚ) / img.width) :=
        mul_le_mul_of_nonneg_left (min_le_left _ _) hw'.le
    _ = tw := by field_simp
  · apply pyRound_le
    calc (img.height : ℚ) * containScale img tw th
        ≤ img.height * ((th : ℚ) / img.height) :=
        mul_le_mul_of_nonneg_left (min_le_right _ _) hh'.le
    _ = th := by field_simp

theorem contain_axis_exact (img : Img) (tw th : ℤ)
    (hw : 0 < img.width) (hh : 0 < img.height) :
    containNewW img tw th = tw ∨ containNewH img tw th = th := by
  have hw' : ((img.width : ℚ)) ≠ 0 := by positivity
  have hh' : ((img.height : ℚ)) ≠ 0 := by positivity
  rcases min_choice ((tw : ℚ) / img.width) ((th : ℚ) / img.height) with hmin | hmin
  · left
    have hsc : (img.width : ℚ) * containScale img tw th = tw := by
      unfold containScale ; rw [hmin] ; field_simp
    unfold containNewW
    rw [hsc, pyRound_intCast]
  · right
    have hsc : (img.height : ℚ) * containScale img tw th = th := by
      unfold containScale ; rw [hmin] ; field_simp
    unfold containNewH
    rw [hsc, pyRound_intCast]

/-! ## Branch reduction of resize_to_poster -/

theorem resizeE_ok (img : Img) (nw nh : ℤ) (h1 : 1 ≤ nw) (h2 : 1 ≤ nh) :
    resizeE img nw nh = .ok (resizeImg img nw nh) := by
  unfold resizeE ; rw [if_pos ⟨h1, h2⟩]

theorem resizeE_err (img : Img) (nw nh : ℤ) (h : ¬(1 ≤ nw ∧ 1 ≤ nh)) :
    resizeE img nw nh = .error .resizeError := by
  unfold resizeE ; rw [if_neg h]

theorem resize_to_poster_cover (img : Img) (tw th : ℤ)
    (h1 : 1 ≤ coverNewW img tw th) (h2 : 1 ≤ coverNewH img tw th) :
    resize_to_poster img (tw, th) "cover" =
      .ok (crop (resizeImg img (coverNewW img tw th) (coverNewH img tw th))
        (coverLeft img tw th) (coverTop img tw th)
        (coverLeft img tw th + tw) (coverTop img tw th + th)) := by
  unfold resize_to_poster
  rw [if_pos rfl, resizeE_ok _ _ _ h1 h2]

theorem resize_to_poster_contain (img : Img) (tw th : ℤ)
    (h1 : 1 ≤ containNewW img tw th) (h2 : 1 ≤ containNewH img tw th) :
    resize_to_poster img (tw, th) "contain" =
      .ok (paste (newRGB tw th whitePixel)
        (resizeImg img (containNewW img tw th) (containNewH img tw th))
        (containLeft img tw th) (containTop img tw th)) := by
  unfold resize_to_poster
  rw [if_neg (by decide), if_pos rfl, resizeE_ok _ _ _ h1 h2]

theorem resize_to_poster_contain_err (img : Img) (tw th : ℤ)
    (h : ¬(1 ≤ containNewW img tw th ∧ 1 ≤ containNewH img tw th)) :
    resize_to_poster img (tw, th) "contain" = .error .resizeError := by
  unfold resize_to_poster
  rw [if_neg (by decide), if_pos rfl, resizeE_err _ _ _ h]

theorem resize_to_poster_bad_mode (img : Img) (target : ℤ × ℤ) (mode : String)
    (h1 : mode ≠ "cover") (h2 : mode ≠ "contain") :
    resize_to_poster img target mode = .error .invalidPolicy := by
  unfold resize_to_poster
  rw [if_neg h1, if_neg h2]

/-! ## The 2x2 partition: explicit tiles, shapes, disjointness, round trip -/

theorem tiles2x2_eq (poster : Img) (aw ah : ℤ) :
    tiles2x2 poster aw ah =
      [((0, 0), crop poster 0 0 (0 + aw) (0 + ah)),
       ((0, 1), crop poster aw 0 (aw + aw) (0 + ah)),
       ((1, 0), crop poster 0 ah (0 + aw) (ah + ah)),
       ((1, 1), crop poster aw ah (aw + aw) (ah + ah))] := by
  unfold tiles2x2
  norm_num [List.range_succ]

theorem crop_width (img : Img) (l t r b : ℤ) :
    (crop img l t r b).width = (r - l).toNat := rfl

theorem crop_height (img : Img) (l t r b : ℤ) :
    (crop img l t r b).height = (b - t).toNat := rfl

theorem crop_pix_in (img : Img) (l t r b x y : ℤ)
    (h1 : 0 ≤ l + x) (h2 : l + x < img.width)
    (h3 : 0 ≤ t + y) (h4 : t + y < img.height) :
    (crop img l t r b).pix x y = img.pix (l + x) (t + y) := by
  unfold crop
  exact if_pos ⟨h1, h2, h3, h4⟩

theorem paste_pix_in (bg img : Img) (l t x y : ℤ)
    (h1 : l ≤ x) (h2 : x < l + img.width)
    (h3 : t ≤ y) (h4 : y < t + img.height) :
    (paste bg img l t).pix x y = img.pix (x - l) (y - t) := by
  unfold paste
  exact if_pos ⟨h1, h2, h3, h4⟩

theorem paste_pix_out (bg img : Img) (l t x y : ℤ)
    (h : ¬(l ≤ x ∧ x < l + img.width ∧ t ≤ y ∧ y < t + img.height)) :
    (paste bg img l t).pix x y = bg.pix x y := by
  unfold paste
  exact if_neg h

theorem tiles2x2_shape (poster : Img) (aw ah : ℤ)
    (t : (ℕ × ℕ) × Img) (ht : t ∈ tiles2x2 poster aw ah) :
    t.2.width = aw.toNat ∧ t.2.height = ah.toNat ∧ t.1.1 < 2 ∧ t.1.2 < 2 := by
  rw [tiles2x2_eq] at ht
  simp only [List.mem_cons, List.not_mem_nil, or_false] at ht
  rcases ht with rfl | rfl | rfl | rfl <;>
    refine ⟨?_, ?_, ?_, ?_⟩ <;>
    simp [crop_width, crop_height]

theorem tileRect_disjoint (aw ah : ℤ) (rc1 rc2 : ℕ × ℕ)
    (h1 : rc1.1 < 2) (h2 : rc1.2 < 2) (h3 : rc2.1 < 2) (h4 : rc2.2 < 2)
    (hne : rc1 ≠ rc2) (p : ℤ × ℤ) :
    ¬(tileRect aw ah rc1 p ∧ tileRect aw ah rc2 p) := by
  obtain ⟨r1, c1⟩ := rc1
  obtain ⟨r2, c2⟩ := rc2
  unfold tileRect
  simp only at h1 h2 h3 h4 ⊢
  interval_cases r1 <;> interval_cases c1 <;> interval_cases r2 <;> interval_cases c2 <;>
    simp_all

theorem reassemble_pix (poster : Img) (aw ah : ℤ)
    (hW : (poster.width : ℤ) = 2 * aw) (hH : (poster.height : ℤ) = 2 * ah)
    (x y : ℤ) (hx0 : 0 ≤ x) (hx1 : x < 2 * aw) (hy0 : 0 ≤ y) (hy1 : y < 2 * ah) :
    (reassemble aw ah (tiles2x2 poster aw ah)).pix x y = poster.pix x y := by
  rw [tiles2x2_eq]
  unfold reassemble
  simp only [List.foldl_cons, List.foldl_nil]
  push_cast
  by_cases hx : x < aw <;> by_cases hy : y < ah
  · -- tile (0, 0)
    rw [paste_pix_out _ _ _ _ _ _ (by simp only [crop_width, crop_height]; omega),
      paste_pix_out _ _ _ _ _ _ (by simp only [crop_width, crop_height]; omega),
      paste_pix_out _ _ _ _ _ _ (by simp only [crop_width, crop_height]; omega),
      paste_pix_in _ _ _ _ _ _ (by omega) (by simp only [crop_width]; omega)
        (by omega) (by simp only [crop_height]; omega)]
    rw [crop_pix_in _ _ _ _ _ _ _ (by omega) (by omega) (by omega) (by omega)]
    norm_num
  · -- tile (1, 0)
    rw [paste_pix_out _ _ _ _ _ _ (by simp only [crop_width, crop_height]; omega),
      paste_pix_in _ _ _ _ _ _ (by omega) (by simp only [crop_width]; omega)
        (by omega) (by simp only [crop_height]; omega)]
    rw [crop_pix_in _ _ _ _ _ _ _ (by omega) (by omega) (by omega) (by omega)]
    congr 1 <;> omega
  · -- tile (0, 1)
    rw [paste_pix_out _ _ _ _ _ _ (by simp only [crop_width, crop_height]; omega),
      paste_pix_out _ _ _ _ _ _ (by simp only [crop_width, crop_height]; omega),
      paste_pix_in _ _ _ _ _ _ (by omega) (by simp only [crop_width]; omega)
        (by omega) (by simp only [crop_height]; omega)]
    rw [crop_pix_in _ _ _ _ _ _ _ (by omega) (by omega) (by omega) (by omega)]
    congr 1 <;> omega
  · -- tile (1, 1)
    rw [paste_pix_in _ _ _ _ _ _ (by omega) (by simp only [crop_width]; omega)
        (by omega) (by simp only [crop_height]; omega)]
    rw [crop_pix_in _ _ _ _ _ _ _ (by omega) (by omega) (by omega) (by omega)]
    congr 1 <;> omega

/-! ## Concrete A4 pixel sizes -/

theorem a4_pixels_300 : a4_pixels 300 = (2480, 3508) := by
  have h1 : pyRound (mm_to_inches A4_MM.1 * ((300 : ℤ) : ℚ)) = 2480 := by
    apply pyRound_eq_low <;> norm_num [mm_to_inches, A4_MM]
  have h2 : pyRound (mm_to_inches A4_MM.2 * ((300 : ℤ) : ℚ)) = 3508 := by
    have h : (3508 : ℤ) = 3507 + 1 := by norm_num
    rw [h]
    apply pyRound_eq_high <;> norm_num [mm_to_inches, A4_MM]
  unfold a4_pixels
  rw [h1, h2]

theorem a4_pixels_150 : a4_pixels 150 = (1240, 1754) := by
  have h1 : pyRound (mm_to_inches A4_MM.1 * ((150 : ℤ) : ℚ)) = 1240 := by
    apply pyRound_eq_low <;> norm_num [mm_to_inches, A4_MM]
  have h2 : pyRound (mm_to_inches A4_MM.2 * ((150 : ℤ) : ℚ)) = 1754 := by
    have h : (1754 : ℤ) = 1753 + 1 := by norm_num
    rw [h]
    apply pyRound_eq_high <;> norm_num [mm_to_inches, A4_MM]
  unfold a4_pixels
  rw [h1, h2]

/-! ## Claims -/

/-- C5: in both policies the centering offsets computed by
resize_to_poster are the floor of half the excess, and the opposite
(bottom/right) side receives the remainder, so when the excess is odd
the bottom/right side gets the extra pixel. -/
theorem C5_centering_floor_bias (img : Img) (tw th : ℤ) :
    (coverLeft img tw th = (coverNewW img tw th - tw) / 2 ∧
      (coverNewW img tw th - tw) - coverLeft img tw th =
        coverLeft img tw th + (coverNewW img tw th - tw) % 2) ∧
    (coverTop img tw th = (coverNewH img tw th - th) / 2 ∧
      (coverNewH img tw th - th) - coverTop img tw th =
        coverTop img tw th + (coverNewH img tw th - th) % 2) ∧
    (containLeft img tw th = (tw - containNewW img tw th) / 2 ∧
      (tw - containNewW img tw th) - containLeft img tw th =
        containLeft img tw th + (tw - containNewW img tw th) % 2) ∧
    (containTop img tw th = (th - containNewH img tw th) / 2 ∧
      (th - containNewH img tw th) - containTop img tw th =
        containTop img tw th + (th - containNewH img tw th) % 2) ∧
    ((coverNewW img tw th - tw) % 2 = 0 ∨ (coverNewW img tw th - tw) % 2 = 1) := by
  unfold coverLeft coverTop containLeft containTop
  rw [fdiv_two_eq, fdiv_two_eq, fdiv_two_eq, fdiv_two_eq]
  omega

/-- C8: a mode outside cover and contain makes resize_to_poster fail
with the invalid policy error and nothing else is computed, while the
modes cover and contain never produce that error. -/
theorem C8_invalid_policy (img : Img) (target : ℤ × ℤ) (mode : String) :
    (mode ≠ "cover" → mode ≠ "contain" →
      resize_to_poster img target mode = .error .invalidPolicy) ∧
    (mode = "cover" ∨ mode = "contain" →
      resize_to_poster img target mode ≠ .error .invalidPolicy) := by
  constructor
  · exact fun h1 h2 => resize_to_poster_bad_mode img target mode h1 h2
  · obtain ⟨tw, th⟩ := target
    rintro (rfl | rfl)
    · by_cases h : 1 ≤ coverNewW img tw th ∧ 1 ≤ coverNewH img tw th
      · rw [resize_to_poster_cover img tw th h.1 h.2]
        simp
      · have he : resize_to_poster img (tw, th) "cover" = .error .resizeError := by
          unfold resize_to_poster
          rw [if_pos rfl, resizeE_err _ _ _ h]
        rw [he]
        simp
    · by_cases h : 1 ≤ containNewW img tw th ∧ 1 ≤ containNewH img tw th
      · rw [resize_to_poster_contain img tw th h.1 h.2]
        simp
      · rw [resize_to_poster_contain_err img tw th h]
        simp

/-- Witness for C8 at a concrete bad mode and a concrete good mode. -/
theorem C8_invalid_policy_witness :
    resize_to_poster (mkImg 3 2) (10, 20) "stretch" = .error .invalidPolicy ∧
    resize_to_poster (mkImg 3 2) (10, 20) "cover" ≠ .error .invalidPolicy :=
  ⟨(C8_invalid_policy (mkImg 3 2) (10, 20) "stretch").1 (by decide) (by decide),
   (C8_invalid_policy (mkImg 3 2) (10, 20) "cover").2 (Or.inl rfl)⟩

/-- C2: the 2x2 partition produces exactly 4 tiles at offsets
(col * cell_w, row * cell_h), each of cell size, with pairwise disjoint
rectangles, and pasting every tile back at its offsets reconstructs the
poster pixel for pixel. -/
theorem C2_partition_round_trip (poster : Img) (aw ah : ℤ)
    (haw : 0 < aw) (hah : 0 < ah)
    (hW : (poster.width : ℤ) = 2 * aw) (hH : (poster.height : ℤ) = 2 * ah) :
    (tiles2x2 poster aw ah).length = 4 ∧
    (∀ t ∈ tiles2x2 poster aw ah,
      t.2.width = aw.toNat ∧ t.2.height = ah.toNat) ∧
    (∀ t1 ∈ tiles2x2 poster aw ah, ∀ t2 ∈ tiles2x2 poster aw ah, t1.1 ≠ t2.1 →
      ∀ p : ℤ × ℤ, ¬(tileRect aw ah t1.1 p ∧ tileRect aw ah t2.1 p)) ∧
    (∀ x y : ℤ, 0 ≤ x → x < 2 * aw → 0 ≤ y → y < 2 * ah →
      (reassemble aw ah (tiles2x2 poster aw ah)).pix x y = poster.pix x y) := by
  refine ⟨rfl, ?_, ?_, ?_⟩
  · intro t ht
    obtain ⟨h1, h2, -, -⟩ := tiles2x2_shape poster aw ah t ht
    exact ⟨h1, h2⟩
  · intro t1 h1 t2 h2 hne p
    obtain ⟨-, -, ha, hb⟩ := tiles2x2_shape poster aw ah t1 h1
    obtain ⟨-, -, hc, hd⟩ := tiles2x2_shape poster aw ah t2 h2
    exact tileRect_disjoint aw ah t1.1 t2.1 ha hb hc hd hne p
  · exact fun x y hx0 hx1 hy0 hy1 =>
      reassemble_pix poster aw ah hW hH x y hx0 hx1 hy0 hy1

/-- Witness for C2 on a concrete 4 x 6 poster split into 2 x 3 cells. -/
theorem C2_partition_round_trip_witness :
    (tiles2x2 (mkImg 4 6) 2 3).length = 4 ∧
    (∀ t ∈ tiles2x2 (mkImg 4 6) 2 3,
      t.2.width = (2 : ℤ).toNat ∧ t.2.height = (3 : ℤ).toNat) ∧
    (∀ t1 ∈ tiles2x2 (mkImg 4 6) 2 3, ∀ t2 ∈ tiles2x2 (mkImg 4 6) 2 3,
      t1.1 ≠ t2.1 →
      ∀ p : ℤ × ℤ, ¬(tileRect 2 3 t1.1 p ∧ tileRect 2 3 t2.1 p)) ∧
    (∀ x y : ℤ, 0 ≤ x → x < 2 * 2 → 0 ≤ y → y < 2 * 3 →
      (reassemble 2 3 (tiles2x2 (mkImg 4 6) 2 3)).pix x y = (mkImg 4 6).pix x y) :=
  C2_partition_round_trip (mkImg 4 6) 2 3 (by decide) (by decide) (by decide) (by decide)

/-- C1 amended: for positive source and target dimensions, cover always
returns an image of exactly the target size; contain does so whenever
the rounded scaled dimensions are both at least 1 (when one rounds to
0, as for extreme aspect ratios, the underlying resize rejects it and
no image is returned, see the counterexample). -/
theorem C1_exact_target_size (img : Img) (tw th : ℤ)
    (hw : 0 < img.width) (hh : 0 < img.height) (htw : 1 ≤ tw) (hth : 1 ≤ th) :
    okSize (resize_to_poster img (tw, th) "cover") = some (tw.toNat, th.toNat) ∧
    (1 ≤ containNewW img tw th → 1 ≤ containNewH img tw th →
      okSize (resize_to_poster img (tw, th) "contain") =
        some (tw.toNat, th.toNat)) := by
  obtain ⟨hW, hH⟩ := cover_new_ge img tw th hw hh
  constructor
  · rw [resize_to_poster_cover img tw th (by omega) (by omega)]
    simp only [okSize, crop_width, crop_height, Option.some.injEq, Prod.mk.injEq]
    omega
  · intro h1 h2
    rw [resize_to_poster_contain img tw th h1 h2]
    rfl

/-- Witness for C1 on a 2 x 2 source and target (4, 4). -/
theorem C1_exact_target_size_witness :
    okSize (resize_to_poster (mkImg 2 2) (4, 4) "cover") =
      some ((4 : ℤ).toNat, (4 : ℤ).toNat) ∧
    (1 ≤ containNewW (mkImg 2 2) 4 4 → 1 ≤ containNewH (mkImg 2 2) 4 4 →
      okSize (resize_to_poster (mkImg 2 2) (4, 4) "contain") =
        some ((4 : ℤ).toNat, (4 : ℤ).toNat)) :=
  C1_exact_target_size (mkImg 2 2) 4 4 (by decide) (by decide) (by decide) (by decide)

/-- Counterexample to C1 as stated: a 1 x 1000 source with positive
target (100, 1) under contain rounds the scaled width to 0, the resize
is rejected, and resize_to_poster raises instead of returning a target
sized image. -/
theorem C1_counterexample :
    resize_to_poster (mkImg 1 1000) (100, 1) "contain" = .error .resizeError := by
  have hs : containScale (mkImg 1 1000) 100 1 = 1/1000 := by
    unfold containScale mkImg
    norm_num [min_def]
  have hw0 : containNewW (mkImg 1 1000) 100 1 = 0 := by
    unfold containNewW
    rw [hs]
    calc pyRound (((mkImg 1 1000).width : ℚ) * (1/1000)) = pyRound (1/1000) := by
          norm_num [mkImg]
    _ = 0 := pyRound_eq_low (by norm_num) (by norm_num)
  apply resize_to_poster_contain_err
  rw [hw0]
  exact fun h => absurd h.1 (by norm_num)

/-- C3: under cover the scaled dimensions are at least the target on
both axes, the centered crop window lies inside the scaled image, and
every output pixel is taken from the scaled source (the zero fill
branch of crop is never reached, so no background pixels appear). -/
theorem C3_cover_no_fill (img : Img) (tw th : ℤ)
    (hw : 0 < img.width) (hh : 0 < img.height) :
    (tw ≤ coverNewW img tw th ∧ th ≤ coverNewH img tw th) ∧
    (0 ≤ coverLeft img tw th ∧ coverLeft img tw th + tw ≤ coverNewW img tw th ∧
     0 ≤ coverTop img tw th ∧ coverTop img tw th + th ≤ coverNewH img tw th) ∧
    (1 ≤ tw → 1 ≤ th →
      ∃ r, resize_to_poster img (tw, th) "cover" = .ok r ∧
        ∀ x y : ℤ, 0 ≤ x → x < tw → 0 ≤ y → y < th →
          (0 ≤ coverLeft img tw th + x ∧
           coverLeft img tw th + x < coverNewW img tw th ∧
           0 ≤ coverTop img tw th + y ∧
           coverTop img tw th + y < coverNewH img tw th) ∧
          r.pix x y =
            (resizeImg img (coverNewW img tw th) (coverNewH img tw th)).pix
              (coverLeft img tw th + x) (coverTop img tw th + y)) := by
  obtain ⟨hW, hH⟩ := cover_new_ge img tw th hw hh
  have hl : coverLeft img tw th = (coverNewW img tw th - tw) / 2 := by
    unfold coverLeft
    rw [fdiv_two_eq]
  have ht : coverTop img tw th = (coverNewH img tw th - th) / 2 := by
    unfold coverTop
    rw [fdiv_two_eq]
  refine ⟨⟨hW, hH⟩, ⟨by omega, by omega, by omega, by omega⟩, ?_⟩
  intro htw hth
  refine ⟨_, resize_to_poster_cover img tw th (by omega) (by omega), ?_⟩
  intro x y hx0 hx1 hy0 hy1
  refine ⟨⟨by omega, by omega, by omega, by omega⟩, ?_⟩
  apply crop_pix_in
  · omega
  · simp only [resizeImg]
    omega
  · omega
  · simp only [resizeImg]
    omega

/-- Witness for C3 on a concrete 5 x 7 source and target (3, 4). -/
theorem C3_cover_no_fill_witness :
    (3 ≤ coverNewW (mkImg 5 7) 3 4 ∧ 4 ≤ coverNewH (mkImg 5 7) 3 4) ∧
    (0 ≤ coverLeft (mkImg 5 7) 3 4 ∧
     coverLeft (mkImg 5 7) 3 4 + 3 ≤ coverNewW (mkImg 5 7) 3 4 ∧
     0 ≤ coverTop (mkImg 5 7) 3 4 ∧
     coverTop (mkImg 5 7) 3 4 + 4 ≤ coverNewH (mkImg 5 7) 3 4) ∧
    (1 ≤ (3 : ℤ) → 1 ≤ (4 : ℤ) →
      ∃ r, resize_to_poster (mkImg 5 7) (3, 4) "cover" = .ok r ∧
        ∀ x y : ℤ, 0 ≤ x → x < 3 → 0 ≤ y → y < 4 →
          (0 ≤ coverLeft (mkImg 5 7) 3 4 + x ∧
           coverLeft (mkImg 5 7) 3 4 + x < coverNewW (mkImg 5 7) 3 4 ∧
           0 ≤ coverTop (mkImg 5 7) 3 4 + y ∧
           coverTop (mkImg 5 7) 3 4 + y < coverNewH (mkImg 5 7) 3 4) ∧
          r.pix x y =
            (resizeImg (mkImg 5 7) (coverNewW (mkImg 5 7) 3 4)
              (coverNewH (mkImg 5 7) 3 4)).pix
              (coverLeft (mkImg 5 7) 3 4 + x) (coverTop (mkImg 5 7) 3 4 + y)) :=
  C3_cover_no_fill (mkImg 5 7) 3 4 (by decide) (by decide)

/-- Aspect preservation of the contain branch up to rounding: twice the
cross product error of the rounded dimensions is at most the sum of the
source dimensions. -/
theorem contain_aspect_bound (img : Img) (tw th : ℤ) :
    2 * |containNewW img tw th * (img.height : ℤ) -
          containNewH img tw th * (img.width : ℤ)| ≤
      (img.width : ℤ) + (img.height : ℤ) := by
  have e1 := pyRound_abs_le ((img.width : ℚ) * containScale img tw th)
  have e2 := pyRound_abs_le ((img.height : ℚ) * containScale img tw th)
  have hw0 : (0 : ℚ) ≤ (img.width : ℚ) := by positivity
  have hh0 : (0 : ℚ) ≤ (img.height : ℚ) := by positivity
  have key : 2 * |(containNewW img tw th : ℚ) * (img.height : ℚ) -
      (containNewH img tw th : ℚ) * (img.width : ℚ)| ≤
      (img.width : ℚ) + (img.height : ℚ) := by
    set s := containScale img tw th with hs
    have hcw : (containNewW img tw th : ℚ) = (pyRound ((img.width : ℚ) * s) : ℚ) := by
      unfold containNewW
      rw [hs]
    have hch : (containNewH img tw th : ℚ) = (pyRound ((img.height : ℚ) * s) : ℚ) := by
      unfold containNewH
      rw [hs]
    set cw : ℚ := (pyRound ((img.width : ℚ) * s) : ℚ) with hcw'
    set ch : ℚ := (pyRound ((img.height : ℚ) * s) : ℚ) with hch'
    rw [hcw, hch]
    have hsplit : cw * (img.height : ℚ) - ch * (img.width : ℚ) =
        (cw - (img.width : ℚ) * s) * (img.height : ℚ) -
        (ch - (img.height : ℚ) * s) * (img.width : ℚ) := by ring
    rw [hsplit]
    calc 2 * |(cw - (img.width : ℚ) * s) * (img.height : ℚ) -
          (ch - (img.height : ℚ) * s) * (img.width : ℚ)|
        ≤ 2 * (|(cw - (img.width : ℚ) * s) * (img.height : ℚ)| +
            |(ch - (img.height : ℚ) * s) * (img.width : ℚ)|) := by
          have := abs_sub ((cw - (img.width : ℚ) * s) * (img.height : ℚ))
            ((ch - (img.height : ℚ) * s) * (img.width : ℚ))
          linarith
    _ = 2 * (|cw - (img.width : ℚ) * s| * (img.height : ℚ) +
          |ch - (img.height : ℚ) * s| * (img.width : ℚ)) := by
          rw [abs_mul, abs_mul, abs_of_nonneg hh0, abs_of_nonneg hw0]
    _ ≤ 2 * ((1/2) * (img.height : ℚ) + (1/2) * (img.width : ℚ)) := by
          have b1 : |cw - (img.width : ℚ) * s| * (img.height : ℚ) ≤
              (1/2) * (img.height : ℚ) :=
            mul_le_mul_of_nonneg_right e1 hh0
          have b2 : |ch - (img.height : ℚ) * s| * (img.width : ℚ) ≤
              (1/2) * (img.width : ℚ) :=
            mul_le_mul_of_nonneg_right e2 hw0
          linarith
    _ = (img.width : ℚ) + (img.height : ℚ) := by ring
  exact_mod_cast key

/-- C4: under contain the scaled image fits within the target on both
axes (exactly filling at least one axis), the centered paste rectangle
lies inside the target, the aspect of the scaled region matches the
source up to rounding, and when the resize succeeds the output is the
scaled image inside the paste rectangle and solid white outside it. -/
theorem C4_contain_letterbox (img : Img) (tw th : ℤ)
    (hw : 0 < img.width) (hh : 0 < img.height) (htw : 1 ≤ tw) (hth : 1 ≤ th) :
    (containNewW img tw th ≤ tw ∧ containNewH img tw th ≤ th) ∧
    (containNewW img tw th = tw ∨ containNewH img tw th = th) ∧
    (0 ≤ containLeft img tw th ∧
     containLeft img tw th + containNewW img tw th ≤ tw ∧
     0 ≤ containTop img tw th ∧
     containTop img tw th + containNewH img tw th ≤ th) ∧
    2 * |containNewW img tw th * (img.height : ℤ) -
          containNewH img tw th * (img.width : ℤ)| ≤
      (img.width : ℤ) + (img.height : ℤ) ∧
    (1 ≤ containNewW img tw th → 1 ≤ containNewH img tw th →
      ∃ r, resize_to_poster img (tw, th) "contain" = .ok r ∧
        r.width = tw.toNat ∧ r.height = th.toNat ∧
        ∀ x y : ℤ, 0 ≤ x → x < tw → 0 ≤ y → y < th →
          ((containLeft img tw th ≤ x ∧
            x < containLeft img tw th + containNewW img tw th ∧
            containTop img tw th ≤ y ∧
            y < containTop img tw th + containNewH img tw th) →
            r.pix x y =
              (resizeImg img (containNewW img tw th) (containNewH img tw th)).pix
                (x - containLeft img tw th) (y - containTop img tw th)) ∧
          (¬(containLeft img tw th ≤ x ∧
             x < containLeft img tw th + containNewW img tw th ∧
             containTop img tw th ≤ y ∧
             y < containTop img tw th + containNewH img tw th) →
            r.pix x y = whitePixel)) := by
  obtain ⟨hW, hH⟩ := contain_new_le img tw th hw hh
  have hl : containLeft img tw th = (tw - containNewW img tw th) / 2 := by
    unfold containLeft
    rw [fdiv_two_eq]
  have ht : containTop img tw th = (th - containNewH img tw th) / 2 := by
    unfold containTop
    rw [fdiv_two_eq]
  refine ⟨⟨hW, hH⟩, contain_axis_exact img tw th hw hh,
    ⟨by omega, by omega, by omega, by omega⟩,
    contain_aspect_bound img tw th, ?_⟩
  intro h1 h2
  refine ⟨_, resize_to_poster_contain img tw th h1 h2, rfl, rfl, ?_⟩
  intro x y hx0 hx1 hy0 hy1
  constructor
  · intro hin
    apply paste_pix_in
    · exact hin.1
    · simp only [resizeImg]
      omega
    · exact hin.2.2.1
    · simp only [resizeImg]
      omega
  · intro hout
    rw [paste_pix_out]
    · rfl
    · simp only [resizeImg]
      omega

/-- Witness for C4 on a concrete 2 x 2 source and target (4, 4). -/
theorem C4_contain_letterbox_witness :
    (containNewW (mkImg 2 2) 4 4 ≤ 4 ∧ containNewH (mkImg 2 2) 4 4 ≤ 4) ∧
    (containNewW (mkImg 2 2) 4 4 = 4 ∨ containNewH (mkImg 2 2) 4 4 = 4) ∧
    (0 ≤ containLeft (mkImg 2 2) 4 4 ∧
     containLeft (mkImg 2 2) 4 4 + containNewW (mkImg 2 2) 4 4 ≤ 4 ∧
     0 ≤ containTop (mkImg 2 2) 4 4 ∧
     containTop (mkImg 2 2) 4 4 + containNewH (mkImg 2 2) 4 4 ≤ 4) ∧
    2 * |containNewW (mkImg 2 2) 4 4 * ((mkImg 2 2).height : ℤ) -
          containNewH (mkImg 2 2) 4 4 * ((mkImg 2 2).width : ℤ)| ≤
      ((mkImg 2 2).width : ℤ) + ((mkImg 2 2).height : ℤ) ∧
    (1 ≤ containNewW (mkImg 2 2) 4 4 → 1 ≤ containNewH (mkImg 2 2) 4 4 →
      ∃ r, resize_to_poster (mkImg 2 2) (4, 4) "contain" = .ok r ∧
        r.width = (4 : ℤ).toNat ∧ r.height = (4 : ℤ).toNat ∧
        ∀ x y : ℤ, 0 ≤ x → x < 4 → 0 ≤ y → y < 4 →
          ((containLeft (mkImg 2 2) 4 4 ≤ x ∧
            x < containLeft (mkImg 2 2) 4 4 + containNewW (mkImg 2 2) 4 4 ∧
            containTop (mkImg 2 2) 4 4 ≤ y ∧
            y < containTop (mkImg 2 2) 4 4 + containNewH (mkImg 2 2) 4 4) →
            r.pix x y =
              (resizeImg (mkImg 2 2) (containNewW (mkImg 2 2) 4 4)
                (containNewH (mkImg 2 2) 4 4)).pix
                (x - containLeft (mkImg 2 2) 4 4) (y - containTop (mkImg 2 2) 4 4)) ∧
          (¬(containLeft (mkImg 2 2) 4 4 ≤ x ∧
             x < containLeft (mkImg 2 2) 4 4 + containNewW (mkImg 2 2) 4 4 ∧
             containTop (mkImg 2 2) 4 4 ≤ y ∧
             y < containTop (mkImg 2 2) 4 4 + containNewH (mkImg 2 2) 4 4) →
            r.pix x y = whitePixel)) :=
  C4_contain_letterbox (mkImg 2 2) 4 4 (by decide) (by decide) (by decide) (by decide)

/-- C6: the A4 pixel size at 300 dpi is 2480 x 3508, and for any source
with positive dimensions the dpi 300, 2x2, cover run produces exactly 4
tiles, each 2480 x 3508 pixels. -/
theorem C6_scenario_300_cover (img : Img)
    (hw : 0 < img.width) (hh : 0 < img.height) :
    a4_pixels 300 = (2480, 3508) ∧
    ∃ ts, mainTiles img 300 "cover" = .ok ts ∧ ts.length = 4 ∧
      ∀ t ∈ ts, t.2.width = 2480 ∧ t.2.height = 3508 := by
  obtain ⟨hW, hH⟩ := cover_new_ge img 4960 7016 hw hh
  have hposter := resize_to_poster_cover img 4960 7016 (by omega) (by omega)
  have hmain : mainTiles img 300 "cover" =
      .ok (tiles2x2
        (crop (resizeImg img (coverNewW img 4960 7016) (coverNewH img 4960 7016))
          (coverLeft img 4960 7016) (coverTop img 4960 7016)
          (coverLeft img 4960 7016 + 4960) (coverTop img 4960 7016 + 7016))
        2480 3508) := by
    unfold mainTiles
    rw [a4_pixels_300]
    norm_num
    rw [hposter]
  refine ⟨a4_pixels_300, _, hmain, rfl, ?_⟩
  intro t ht
  obtain ⟨h1, h2, -, -⟩ := tiles2x2_shape _ 2480 3508 t ht
  exact ⟨by rw [h1] ; rfl, by rw [h2] ; rfl⟩

/-- Witness for C6 on a concrete 10 x 20 source. -/
theorem C6_scenario_300_cover_witness :
    a4_pixels 300 = (2480, 3508) ∧
    ∃ ts, mainTiles (mkImg 10 20) 300 "cover" = .ok ts ∧ ts.length = 4 ∧
      ∀ t ∈ ts, t.2.width = 2480 ∧ t.2.height = 3508 :=
  C6_scenario_300_cover (mkImg 10 20) (by decide) (by decide)

/-- C7 amended: at dpi 150 the code computes an A4 cell of 1240 x 1754
portrait, hence 1754 x 1240 landscape; a 1 x 2 stacked grid of such
landscape cells has tile 1 on pixel rows [0, 1240) and tile 2 on rows
[1240, 2480), assembling a 1754 x 2480 poster. -/
theorem C7_scenario_150 :
    a4_pixels 150 = (1240, 1754) ∧
    stackedTileRows 1240 0 = (0, 1240) ∧
    stackedTileRows 1240 1 = (1240, 2480) := by
  refine ⟨a4_pixels_150, ?_, ?_⟩ <;> unfold stackedTileRows <;> norm_num

/-- Counterexample to C7 as stated: at dpi 150 the computed cell is
1240 x 1754 portrait (1754 x 1240 landscape), not 1654 x 1169. -/
theorem C7_counterexample :
    a4_pixels 150 ≠ (1169, 1654) ∧ a4_pixels 150 ≠ (1654, 1169) := by
  rw [a4_pixels_150]
  constructor <;> decide

/-- C9 amended: resize_to_poster performs no validation of the target
dimensions and never raises a dimension error; with target width 0 and
a square source, cover even succeeds and returns a 0 wide image. -/
theorem C9_no_dimension_validation (img : Img) (th : ℤ)
    (hw : 0 < img.width) (hsq : img.width = img.height) (hth : 1 ≤ th) :
    okSize (resize_to_poster img (0, th) "cover") = some (0, th.toNat) := by
  have hw' : (0 : ℚ) < (img.width : ℚ) := by exact_mod_cast hw
  have hne : ((img.width : ℚ)) ≠ 0 := ne_of_gt hw'
  have hhq : ((img.height : ℕ) : ℚ) = (img.width : ℚ) := by exact_mod_cast hsq.symm
  have hth' : (0 : ℚ) < (th : ℚ) := by exact_mod_cast (by omega : (0 : ℤ) < th)
  have hsc : coverScale img 0 th = (th : ℚ) / img.width := by
    unfold coverScale
    rw [hhq, Int.cast_zero, zero_div]
    exact max_eq_right (div_nonneg hth'.le hw'.le)
  have hmul : (img.width : ℚ) * ((th : ℚ) / img.width) = th := by
    field_simp
  have hnw : coverNewW img 0 th = th := by
    unfold coverNewW
    rw [hsc, hmul, pyRound_intCast]
  have hnh : coverNewH img 0 th = th := by
    unfold coverNewH
    rw [hsc, hhq, hmul, pyRound_intCast]
  rw [resize_to_poster_cover img 0 th (by omega) (by omega)]
  simp only [okSize, crop_width, crop_height, Option.some.injEq, Prod.mk.injEq]
  omega

/-- Witness for C9 on a 2 x 2 source with target (0, 3). -/
theorem C9_no_dimension_validation_witness :
    okSize (resize_to_poster (mkImg 2 2) (0, 3) "cover") = some (0, (3 : ℤ).toNat) :=
  C9_no_dimension_validation (mkImg 2 2) 3 (by decide) (by decide) (by decide)

/-- Counterexample to C9 as stated: with target width 0 (which is ≤ 0)
and a 1 x 1 source, resize_to_poster does not fail with any dimension
error; it succeeds and returns a 0 x 1 image. -/
theorem C9_counterexample :
    okSize (resize_to_poster (mkImg 1 1) (0, 1) "cover") = some (0, 1) := by
  have hsc : coverScale (mkImg 1 1) 0 1 = 1 := by
    unfold coverScale mkImg
    norm_num [max_def]
  have hnw : coverNewW (mkImg 1 1) 0 1 = 1 := by
    unfold coverNewW
    rw [hsc]
    calc pyRound (((mkImg 1 1).width : ℚ) * 1) = pyRound 1 := by norm_num [mkImg]
    _ = 1 := pyRound_eq_low (by norm_num) (by norm_num)
  have hnh : coverNewH (mkImg 1 1) 0 1 = 1 := by
    unfold coverNewH
    rw [hsc]
    calc pyRound (((mkImg 1 1).height : ℚ) * 1) = pyRound 1 := by norm_num [mkImg]
    _ = 1 := pyRound_eq_low (by norm_num) (by norm_num)
  rw [resize_to_poster_cover _ _ _ (by omega) (by omega)]
  simp only [okSize, crop_width, crop_height, Option.some.injEq, Prod.mk.injEq]
  omega

/-- C10: split_image_to_a4 of 2x2.py resizes every source directly to
7016 x 4960 (two by two A4 landscape cells at the hardcoded 300 dpi
size), and the horizontal and vertical scale factors differ whenever
the source aspect differs from 7016:4960, so the resize is non uniform
there (neither cover nor contain, which scale uniformly). -/
theorem C10_direct_resize_distorts (img : Img)
    (hw : 0 < img.width) (hh : 0 < img.height) :
    split2x2_resize img true = .ok (resizeImg img 7016 4960) ∧
    (resizeImg img 7016 4960).width = 7016 ∧
    (resizeImg img 7016 4960).height = 4960 ∧
    ((a4_size true).1 : ℤ) = (a4_pixels 300).2 ∧
    ((a4_size true).2 : ℤ) = (a4_pixels 300).1 ∧
    (4960 * (img.width : ℚ) ≠ 7016 * (img.height : ℚ) →
      (7016 : ℚ) / img.width ≠ (4960 : ℚ) / img.height) := by
  refine ⟨?_, rfl, rfl, ?_, ?_, ?_⟩
  · unfold split2x2_resize a4_size
    norm_num
    rw [resizeE_ok _ _ _ (by norm_num) (by norm_num)]
  · rw [a4_pixels_300]
    decide
  · rw [a4_pixels_300]
    decide
  · intro hne heq
    have hwq : ((img.width : ℚ)) ≠ 0 := Nat.cast_ne_zero.mpr hw.ne'
    have hhq : ((img.height : ℚ)) ≠ 0 := Nat.cast_ne_zero.mpr hh.ne'
    rw [div_eq_div_iff hwq hhq] at heq
    exact hne (by linarith)

/-- Witness for C10 on a concrete 3 x 5 source. -/
theorem C10_direct_resize_distorts_witness :
    split2x2_resize (mkImg 3 5) true = .ok (resizeImg (mkImg 3 5) 7016 4960) ∧
    (resizeImg (mkImg 3 5) 7016 4960).width = 7016 ∧
    (resizeImg (mkImg 3 5) 7016 4960).height = 4960 ∧
    ((a4_size true).1 : ℤ) = (a4_pixels 300).2 ∧
    ((a4_size true).2 : ℤ) = (a4_pixels 300).1 ∧
    (4960 * ((mkImg 3 5).width : ℚ) ≠ 7016 * ((mkImg 3 5).height : ℚ) →
      (7016 : ℚ) / (mkImg 3 5).width ≠ (4960 : ℚ) / (mkImg 3 5).height) :=
  C10_direct_resize_distorts (mkImg 3 5) (by decide) (by decide)
